import Mathlib

/-!
Shallow embedding of the stock-research backend's data-acquisition and
cache-freshness core (Python), for checking its specification.

Conventions of the embedding:
* Python floats are modelled as rationals (`ℚ`).
* Python `datetime` values are modelled as integer seconds since an epoch;
  `timedelta` values are integer (or rational) second counts.
* Python `None` is `Option.none`; a dict field that may be absent or null is
  an `Option` field of a structure.
* Python's `round(x, n)` (round-half-to-even) is `pyRound n x`.
* Log messages are dropped; humane warning / error strings are abstracted to
  inductive values carrying exactly the data interpolated into the string.
-/

namespace StockResearch

/-- Round-half-to-even on rationals, the rounding mode of Python's built-in
`round` function. -/
def roundHalfEven (q : ℚ) : ℤ :=
  let f : ℤ := ⌊q⌋
  let r : ℚ := q - f
  if r < 1/2 then f
  else if 1/2 < r then f + 1
  else if f % 2 = 0 then f else f + 1

/-- Python's `round(q, d)`: round to `d` decimal digits, half to even. -/
def pyRound (d : ℕ) (q : ℚ) : ℚ :=
  (roundHalfEven (q * (10 : ℚ) ^ d) : ℚ) / (10 : ℚ) ^ d

/-! ## Cross-provider merge (`FinnhubEstimatesClient.merge_with_polygon`)

Source: `backend/app/services/finnhub_client.py`, lines 122-160.
A primary (Polygon) earnings line and a supplemental (Finnhub) estimate line
are both Python dicts; we embed them as structures whose `Option` fields are
the values of `dict.get`.  The source field `pe_ratio` is named `peRat` here
(and similarly everywhere below) purely for Lean naming reasons. -/

/-- A primary (Polygon) earnings line, as built by
`PolygonClient._build_earnings_from_financials`. -/
structure EarningsLine where
  fiscal_date : Option String
  period : String
  reported_eps : Option ℚ
  estimated_eps : Option ℚ
  surprise_pct : Option ℚ
  revenue : Option ℚ
  free_cash_flow : Option ℚ
  peRat : Option ℚ
  price : Option ℚ
  deriving DecidableEq, Repr

/-- A supplemental (Finnhub) estimate line, as built by
`FinnhubEstimatesClient.get_earnings_estimates`. -/
structure FinnhubRec where
  fiscal_date : Option String
  reported_eps : Option ℚ
  estimated_eps : Option ℚ
  surprise_pct : Option ℚ
  period : String
  deriving DecidableEq, Repr

/-- The dict `finnhub_by_date` of `merge_with_polygon`, looked up at key `d`:
entries with a falsy (`None` or empty) `fiscal_date` are skipped, and a later
entry with the same date overwrites an earlier one (Python dict insertion). -/
def suppLookup (ests : List FinnhubRec) (d : String) : Option FinnhubRec :=
  (ests.filter (fun e => decide (e.fiscal_date = some d))).getLast?

/-- The body of the merge loop of `merge_with_polygon` for one primary line:
match by truthy `fiscal_date`, fill `estimated_eps` only when the primary
value is `None`, always overwrite `surprise_pct` when the supplemental value
is present. -/
def mergeOne (ests : List FinnhubRec) (p : EarningsLine) : EarningsLine :=
  match p.fiscal_date with
  | none => p
  | some d =>
    if d = "" then p
    else
      match suppLookup ests d with
      | none => p
      | some f =>
        let r1 :=
          if f.estimated_eps ≠ none ∧ p.estimated_eps = none then
            { p with estimated_eps := f.estimated_eps }
          else p
        if f.surprise_pct ≠ none then
          { r1 with surprise_pct := f.surprise_pct }
        else r1

/-- `FinnhubEstimatesClient.merge_with_polygon`: `if not finnhub_estimates`
(i.e. `None` or the empty list) returns the primary list unchanged, otherwise
maps the merge body over the primary lines. -/
def merge_with_polygon (polygon_earnings : List EarningsLine)
    (finnhub_estimates : Option (List FinnhubRec)) : List EarningsLine :=
  match finnhub_estimates with
  | none => polygon_earnings
  | some [] => polygon_earnings
  | some ests => polygon_earnings.map (mergeOne ests)

/-! ## Polygon metric derivation (`PolygonClient`)

Source: `backend/app/services/polygon_client.py`. -/

/-- The value stored under one field of a Polygon financial-statement section:
either a nested dict carrying an optional `value`, or a bare number.  Mirrors
the `isinstance(x, dict)` branching of the source. -/
inductive FieldData where
  | dictVal (value : Option ℚ)
  | rawVal (x : ℚ)
  deriving DecidableEq, Repr

/-- A financial-statement section (e.g. `income_statement`) as an association
list standing for the Python dict; `dictGet` is `dict.get(key)`. -/
def Section := List (String × FieldData)

/-- `section.get(key)`: the value at the first matching key, if any. -/
def dictGet (s : Section) (k : String) : Option FieldData :=
  match s.find? (fun p => decide (p.1 = k)) with
  | some p => some p.2
  | none => none

/-- The per-candidate extraction step shared by the lookup loops of
`_build_earnings_from_financials`: a dict yields its optional `"value"`,
a bare value yields itself, an absent key leaves the accumulator unchanged. -/
def candStep (sec : Section) (acc : Option ℚ) (k : String) : Option ℚ :=
  match dictGet sec k with
  | some (.dictVal v) => v
  | some (.rawVal x) => some x
  | none => acc

/-- Python truthiness of an optional float: present and nonzero. -/
def truthyQ : Option ℚ → Bool
  | some x => decide (x ≠ 0)
  | none => false

/-- The candidate-field lookup loop of `_build_earnings_from_financials`
(`for key in candidates: ... if value: break`), started from accumulator
`acc` (the source starts it at `None`): each present candidate overwrites the
accumulator and the loop stops at the first truthy accumulator value. -/
def candLoop (sec : Section) : List String → Option ℚ → Option ℚ
  | [], acc => acc
  | k :: ks, acc =>
    let acc' := candStep sec acc k
    if truthyQ acc' then acc' else candLoop sec ks acc'

/-- Modelled from the spec (for comparison with `candLoop` only, refinement
claim C8): "trying an ordered list of candidate field names per concept -
first present, non-null value wins", a value of zero included. -/
def specFirstPresentNonNull (sec : Section) (ks : List String) : Option ℚ :=
  ks.findSome? (fun k =>
    match dictGet sec k with
    | some (.dictVal v) => v
    | some (.rawVal x) => some x
    | none => none)

/-- Candidate field names for revenue in
`_build_earnings_from_financials`. -/
def revenueKeys : List String := ["revenues", "total_revenue", "revenue"]

/-- Candidate field names for earnings-per-share. -/
def epsKeys : List String :=
  ["basic_earnings_per_share", "diluted_earnings_per_share",
   "earnings_per_share"]

/-- Candidate field names for free cash flow. -/
def fcfKeys : List String :=
  ["net_cash_flow_from_operating_activities", "operating_cash_flow",
   "free_cash_flow"]

/-- One quarterly financial statement as consumed by
`_build_earnings_from_financials`: the optional fiscal-date candidates and
the statement sections. -/
structure Financial where
  filing_date : Option String
  period_of_report_date : Option String
  end_date : Option String
  income_statement : Section
  cash_flow_statement : Section

/-- The fiscal-date preference of `_build_earnings_from_financials`:
`filing_date or period_of_report_date or end_date` (Python `or`, so empty
strings are skipped like `None`). -/
def fiscalDateOf (fin : Financial) : Option String :=
  let pick : Option String → Option String → Option String := fun a b =>
    match a with
    | some s => if s = "" then b else some s
    | none => b
  pick fin.filing_date (pick fin.period_of_report_date
    (pick fin.end_date none))

/-- `PolygonClient._get_quarter_from_date`, restricted to its month-to-quarter
mapping: the source parses the ISO date and buckets the month (1-3 Q1, 4-6 Q2,
7-9 Q3, else Q4), answering `"Q"` when parsing fails.  We model the parsed
month as `Option ℕ`. -/
def quarterFromMonth (month : Option ℕ) : String :=
  match month with
  | none => "Q"
  | some m =>
    if m ≤ 3 then "Q1"
    else if m ≤ 6 then "Q2"
    else if m ≤ 9 then "Q3"
    else "Q4"

/-- The earnings line built for one financial statement by
`_build_earnings_from_financials` (given the month parsed from its fiscal
date, for the `period` field). -/
def buildLine (fin : Financial) (fiscalDate : String) (month : Option ℕ) :
    EarningsLine :=
  { fiscal_date := some fiscalDate
    period := quarterFromMonth month
    reported_eps := candLoop fin.income_statement epsKeys none
    estimated_eps := none
    surprise_pct := none
    revenue := candLoop fin.income_statement revenueKeys none
    free_cash_flow := candLoop fin.cash_flow_statement fcfKeys none
    peRat := none
    price := none }

/-- `PolygonClient._calculate_pe`.  `price_data.get("close")` is the `price`
argument; `if not price` rejects an absent or zero close.  With at least four
earnings lines, sum the positive `reported_eps` values of the first four
(`if eps and eps > 0`), and produce `round(price / total, 2)` only when at
least three quarters contributed and the total is positive. -/
def calculate_pe (price : Option ℚ) (earnings : List EarningsLine) :
    Option ℚ :=
  match price with
  | none => none
  | some p =>
    if p = 0 then none
    else
      if 4 ≤ earnings.length then
        let pos := (earnings.take 4).filterMap (fun e =>
          match e.reported_eps with
          | some x => if 0 < x then some x else none
          | none => none)
        let total := pos.sum
        if 3 ≤ pos.length ∧ 0 < total then some (pyRound 2 (p / total))
        else none
      else none

/-- The positive reported-EPS values among the most recent four of a list of
earnings lines (the TTM window of `_calculate_pe`). -/
def posEpsWindow (earnings : List EarningsLine) : List ℚ :=
  (earnings.take 4).filterMap (fun e =>
    match e.reported_eps with
    | some x => if 0 < x then some x else none
    | none => none)

/-! ## Finnhub estimate fetch (`FinnhubEstimatesClient.get_earnings_estimates`)

Source: `backend/app/services/finnhub_client.py`, lines 30-120.  The HTTP
transport is external: we model it as a sequence of outcomes, one per request
the client would issue (index 0 for the first request and so on), and count
how many requests the client actually issues. -/

/-- One element of the Finnhub earnings list. -/
structure FinnhubItem where
  period : Option String
  actual : Option ℚ
  estimate : Option ℚ
  surprisePercent : Option ℚ
  deriving DecidableEq, Repr

/-- The body obtained from `response.json()`: the decode may raise (caught by
the enclosing `except`), the decoded value may fail the
`isinstance(data, list)` check, or it is a list of items. -/
inductive FinnhubBody where
  | parseError
  | notAList
  | items (l : List FinnhubItem)

/-- The outcome of one HTTP request: a transport exception (caught by the
enclosing `except`), or a status code with a body. -/
inductive HttpOutcome where
  | exn
  | status (code : ℕ) (body : FinnhubBody)

/-- The per-ticker entry of the client's in-memory cache
(`self._cache[cache_key]`): the cached records and the time they were
stored. -/
structure FhCache where
  data : List FinnhubRec
  timestamp : ℤ
  deriving DecidableEq, Repr

/-- Result of one `get_earnings_estimates` call: the returned value, the
number of upstream HTTP requests issued, and the cache state afterwards. -/
structure FhResult where
  result : Option (List FinnhubRec)
  requests : ℕ
  cache : Option FhCache

/-- The quarter-to-month-day map of `get_earnings_estimates`
(`quarter_months.get(q, "12-31")`). -/
def quarterMonthDay (q : String) : String :=
  if q = "1" then "03-31"
  else if q = "2" then "06-30"
  else if q = "3" then "09-30"
  else if q = "4" then "12-31"
  else "12-31"

/-- Python `s.split("-Q")` at the character level (the separator occurrences
are scanned left to right, non-overlapping). -/
def splitOnDashQ : List Char → List (List Char)
  | [] => [[]]
  | '-' :: 'Q' :: rest => [] :: splitOnDashQ rest
  | c :: rest =>
    match splitOnDashQ rest with
    | [] => [[c]]
    | p :: ps => (c :: p) :: ps

/-- The period-to-fiscal-date normalization of `get_earnings_estimates`:
a `"YYYY-Qn"` period maps to that quarter's final calendar day; a period
without `"-Q"` is used as is; the two-way unpacking of `split("-Q")` raises
on three or more pieces, which the source catches into a `None` date. -/
def parsePeriod (period : String) : Option String :=
  match splitOnDashQ period.toList with
  | [_] => some period
  | [year, q] => some (String.mk year ++ "-" ++ quarterMonthDay (String.mk q))
  | _ => none

/-- The record built for one Finnhub item. -/
def parseFinnhubItem (item : FinnhubItem) : FinnhubRec :=
  let p := item.period.getD ""
  { fiscal_date := parsePeriod p
    reported_eps := item.actual
    estimated_eps := item.estimate
    surprise_pct := item.surprisePercent
    period := p }

/-- The six-hour validity window of the client's internal cache. -/
def fhCacheTTL : ℤ := 6 * 3600

/-- The `try` block of `get_earnings_estimates` issuing the one HTTP
request: every failure (429, 403, other error status, transport or parse
error, non-list or empty body) is swallowed into `None`, and a non-empty
item list is parsed, cached and returned. -/
def fhFetch (cache : Option FhCache) (now : ℤ) (o : HttpOutcome) : FhResult :=
  match o with
  | .exn => ⟨none, 1, cache⟩
  | .status code body =>
    if code = 429 then ⟨none, 1, cache⟩
    else if code = 403 then ⟨none, 1, cache⟩
    else if 400 ≤ code then ⟨none, 1, cache⟩
    else
      match body with
      | .parseError => ⟨none, 1, cache⟩
      | .notAList => ⟨none, 1, cache⟩
      | .items [] => ⟨none, 1, cache⟩
      | .items (i :: is) =>
        let recs := (i :: is).map parseFinnhubItem
        ⟨some recs, 1, some ⟨recs, now⟩⟩

/-- `FinnhubEstimatesClient.get_earnings_estimates`: unconfigured clients and
fresh cache entries answer without a request; otherwise the single request
of `fhFetch` is issued. -/
def get_earnings_estimates (cfg : Bool) (cache : Option FhCache) (now : ℤ)
    (seq : ℕ → HttpOutcome) : FhResult :=
  if ¬cfg then ⟨none, 0, cache⟩
  else
    match cache with
    | some c =>
      if now - c.timestamp < fhCacheTTL then ⟨some c.data, 0, cache⟩
      else fhFetch cache now (seq 0)
    | none => fhFetch cache now (seq 0)

/-- An HTTP outcome on which `get_earnings_estimates` obtains no usable data
(every branch of the source that ends in `return None` after a request). -/
def failureOutcome : HttpOutcome → Bool
  | .exn => true
  | .status code body =>
    if code = 429 ∨ code = 403 ∨ 400 ≤ code then true
    else
      match body with
      | .parseError => true
      | .notAList => true
      | .items [] => true
      | .items (_ :: _) => false

/-! ## Orchestrator and cache store (`StockDataClient`)

Source: `backend/app/services/stock_data_client.py`.  The external
collaborators are made explicit parameters: the persistence store is a `Db`
value threaded through, the single Polygon fetch of one request is an
`Except` outcome, and `datetime.utcnow()` is the `now` parameter (in seconds;
`utcnow().date()` is the `todayStr` parameter). -/

/-- A persisted `StockSummary` row (the columns touched by the client). -/
structure SummaryRow where
  ticker : String
  name : String
  market_cap : Option ℚ
  current_price : Option ℚ
  peRat : Option ℚ
  revenue_growth : Option ℚ
  free_cash_flow : Option ℚ
  profit_margin : Option ℚ
  operating_margin : Option ℚ
  roe : Option ℚ
  debt_to_equity : Option ℚ
  dividend_yield : Option ℚ
  beta : Option ℚ
  price_52w_high : Option ℚ
  price_52w_low : Option ℚ
  next_earnings_date : Option String
  fetched_at : ℤ
  deriving DecidableEq, Repr

/-- A persisted `EarningsRecord` row. -/
structure EarningsRow where
  ticker : String
  fiscal_date : String
  period : String
  reported_eps : Option ℚ
  estimated_eps : Option ℚ
  surprise_pct : Option ℚ
  revenue : Option ℚ
  free_cash_flow : Option ℚ
  peRat : Option ℚ
  price : Option ℚ
  deriving DecidableEq, Repr

/-- The relational store: summary rows (at most one per ticker in practice)
and earnings rows. -/
structure Db where
  summaries : List SummaryRow
  earnings : List EarningsRow
  deriving DecidableEq, Repr

/-- The `summary` sub-dict of `StockDataClient._format_response`. -/
structure SummaryOut where
  ticker : String
  name : String
  market_cap : Option ℚ
  current_price : Option ℚ
  peRat : Option ℚ
  revenue_growth : Option ℚ
  free_cash_flow : Option ℚ
  profit_margin : Option ℚ
  operating_margin : Option ℚ
  roe : Option ℚ
  debt_to_equity : Option ℚ
  dividend_yield : Option ℚ
  beta : Option ℚ
  price_52w_high : Option ℚ
  price_52w_low : Option ℚ
  next_earnings_date : Option String
  deriving DecidableEq, Repr

/-- One element of the `earnings` list of `_format_response`. -/
structure EarningsOut where
  fiscal_date : String
  period : String
  reported_eps : Option ℚ
  estimated_eps : Option ℚ
  surprise_pct : Option ℚ
  revenue : Option ℚ
  free_cash_flow : Option ℚ
  peRat : Option ℚ
  price : Option ℚ
  deriving DecidableEq, Repr

/-- The two `_warning` strings the client can attach, abstracted to the data
interpolated into them: `"Using cached data - API key not configured"` and
`"Using {hours_old} hour old data - API temporarily unavailable"`. -/
inductive Warn where
  | notConfigured
  | staleApi (hoursOld : ℚ)
  deriving DecidableEq, Repr

/-- The response dict assembled by `_format_response`, together with the
optional annotation keys (`_fetched_at`, `_cache_age_hours`, `_warning`)
that `_get_cached_data` and `get_stock_data` may add. -/
structure Response where
  ticker : String
  name : String
  summary : SummaryOut
  earnings : List EarningsOut
  source : String
  cached_at : ℤ
  fetchedAtAnn : Option ℤ
  cacheAgeHours : Option ℚ
  warning : Option Warn
  deriving DecidableEq, Repr

/-- The exceptions `get_stock_data` may raise, abstracted to the failure
category plus the data interpolated into the message. -/
inductive StockError where
  | notConfiguredNoCache
  | rateLimited (ticker : String)
  | notFound (ticker : String)
  | authFailed
  | couldNotFetch (ticker : String) (msg : String)
  deriving DecidableEq, Repr

/-- Lexicographic order on character lists (Python string comparison). -/
def charListLt : List Char → List Char → Bool
  | [], [] => false
  | [], _ :: _ => true
  | _ :: _, [] => false
  | a :: as, b :: bs =>
    if a < b then true else if b < a then false else charListLt as bs

/-- String comparison for fiscal dates; the stored dates are ISO strings, so
this order agrees with the date order the source sorts by. -/
def strLtB (a b : String) : Bool := charListLt a.toList b.toList

/-- Insert one earnings row into a date-descending list. -/
def insertDesc (e : EarningsRow) : List EarningsRow → List EarningsRow
  | [] => [e]
  | x :: xs =>
    if strLtB x.fiscal_date e.fiscal_date then e :: x :: xs
    else x :: insertDesc e xs

/-- The date-descending ordering applied to earnings rows (both the
`order_by(fiscal_date.desc())` query and the `sorted(..., reverse=True)` of
`_format_response`). -/
def sortByDateDesc (l : List EarningsRow) : List EarningsRow :=
  l.foldr insertDesc []

/-- The response entry for one earnings row. -/
def rowOut (e : EarningsRow) : EarningsOut :=
  { fiscal_date := e.fiscal_date
    period := e.period
    reported_eps := e.reported_eps
    estimated_eps := e.estimated_eps
    surprise_pct := e.surprise_pct
    revenue := e.revenue
    free_cash_flow := e.free_cash_flow
    peRat := e.peRat
    price := e.price }

/-- `StockDataClient._format_response`. -/
def formatResponse (ticker : String) (s : SummaryRow)
    (earnings : List EarningsRow) : Response :=
  { ticker := ticker
    name := s.name
    summary :=
      { ticker := ticker
        name := s.name
        market_cap := s.market_cap
        current_price := s.current_price
        peRat := s.peRat
        revenue_growth := s.revenue_growth
        free_cash_flow := s.free_cash_flow
        profit_margin := s.profit_margin
        operating_margin := s.operating_margin
        roe := s.roe
        debt_to_equity := s.debt_to_equity
        dividend_yield := s.dividend_yield
        beta := s.beta
        price_52w_high := s.price_52w_high
        price_52w_low := s.price_52w_low
        next_earnings_date := s.next_earnings_date }
    earnings := (sortByDateDesc earnings).map rowOut
    source := "Polygon.io"
    cached_at := s.fetched_at
    fetchedAtAnn := none
    cacheAgeHours := none
    warning := none }

/-- The `CACHE_TTL` table, in seconds: price one minute, financials and
company info twenty-four hours. -/
def cacheTTLPrice : ℤ := 60

/-- `CACHE_TTL["financials"]` in seconds. -/
def cacheTTLFinancials : ℤ := 24 * 3600

/-- `CACHE_TTL["company_info"]` in seconds. -/
def cacheTTLCompanyInfo : ℤ := 24 * 3600

/-- `max(CACHE_TTL.values())`, the whole-record threshold of
`_get_cached_data`. -/
def maxTTL : ℤ := max cacheTTLPrice (max cacheTTLFinancials cacheTTLCompanyInfo)

/-- `StockDataClient._get_cached_data`: the first summary row for the ticker,
rejected when the cache age exceeds the maximal TTL unless `accept_stale`,
formatted together with the ticker's earnings rows and annotated with
`_fetched_at` and `_cache_age_hours` (the age rounded to one decimal of an
hour). -/
def getCachedData (db : Db) (now : ℤ) (ticker : String)
    (acceptStale : Bool) : Option Response :=
  match (db.summaries.filter (fun s => decide (s.ticker = ticker))).head? with
  | none => none
  | some s =>
    let cacheAge : ℤ := now - s.fetched_at
    if ¬acceptStale ∧ maxTTL < cacheAge then none
    else
      let es := db.earnings.filter (fun e => decide (e.ticker = ticker))
      some { formatResponse ticker s es with
              fetchedAtAnn := some s.fetched_at
              cacheAgeHours := some (pyRound 1 ((cacheAge : ℚ) / 3600)) }

/-- `StockDataClient._get_cache_age_hours`: hours between `now` and the
`_fetched_at` annotation, rounded to one decimal; `0` when absent. -/
def getCacheAgeHours (now : ℤ) (fetchedAt : Option ℤ) : ℚ :=
  match fetchedAt with
  | none => 0
  | some t => pyRound 1 (((now - t : ℤ) : ℚ) / 3600)

/-- Whether `needle` is a prefix of `hay`. -/
def prefixOf : List Char → List Char → Bool
  | [], _ => true
  | _ :: _, [] => false
  | a :: as, b :: bs => (decide (a = b)) && prefixOf as bs

/-- Whether `needle` occurs contiguously in `hay` (Python `needle in hay`). -/
def containsSub (needle : List Char) : List Char → Bool
  | [] => needle.isEmpty
  | c :: rest => prefixOf needle (c :: rest) || containsSub needle rest

/-- Python `needle in hay` on strings. -/
def strContains (hay needle : String) : Bool :=
  containsSub needle.toList hay.toList

/-- Python `s.lower()` (character-wise lowering suffices for the ASCII
indicator substrings the client searches for). -/
def pyLower (s : String) : String := String.mk (s.toList.map Char.toLower)

/-- The error classification of `get_stock_data` when no cache exists: the
source inspects the upstream error message, in order, for rate-limit,
not-found and auth-failure indicators, and otherwise raises the generic
could-not-fetch error carrying the message. -/
def classifyError (ticker : String) (msg : String) : StockError :=
  let lower := pyLower msg
  if strContains msg "429" || strContains lower "rate limit" then
    .rateLimited ticker
  else if strContains msg "404" || strContains lower "not found" then
    .notFound ticker
  else if strContains msg "401" || strContains lower "unauthorized" then
    .authFailed
  else
    .couldNotFetch ticker msg

/-- Python `s.upper()` (character-wise; tickers are ASCII). -/
def pyUpper (s : String) : String := String.mk (s.toList.map Char.toUpper)

/-- Python `s.strip()`: drop leading and trailing whitespace. -/
def pyStrip (s : String) : String :=
  String.mk
    (((s.toList.dropWhile Char.isWhitespace).reverse.dropWhile
        Char.isWhitespace).reverse)

/-- The normalized payload `polygon_client.get_stock_data` hands to
`_save_polygon_data` (the keys that function reads). -/
structure PolyPayload where
  name : String
  market_cap : Option ℚ
  current_price : Option ℚ
  peRat : Option ℚ
  revenue_growth : Option ℚ
  free_cash_flow : Option ℚ
  profit_margin : Option ℚ
  operating_margin : Option ℚ
  roe : Option ℚ
  debt_to_equity : Option ℚ
  dividend_yield : Option ℚ
  beta : Option ℚ
  price_52w_high : Option ℚ
  price_52w_low : Option ℚ
  next_earnings_date : Option String
  earnings : List EarningsLine
  deriving DecidableEq, Repr

/-- The `EarningsRecord` row `_save_polygon_data` builds for one payload
line: a falsy fiscal date falls back to today's date, the row-level
`pe_ratio` column is filled from the payload's summary-level value, and
`price` is the payload's current price (`or 0`). -/
def mkEarningsRow (ticker : String) (data : PolyPayload) (todayStr : String)
    (currentP : ℚ) (e : EarningsLine) : EarningsRow :=
  { ticker := ticker
    fiscal_date :=
      match e.fiscal_date with
      | some d => if d = "" then todayStr else d
      | none => todayStr
    period := e.period
    reported_eps := e.reported_eps
    estimated_eps := e.estimated_eps
    surprise_pct := e.surprise_pct
    revenue := e.revenue
    free_cash_flow := e.free_cash_flow
    peRat := data.peRat
    price := some currentP }

/-- The `summary_values` upserted by `_save_polygon_data`. -/
def mkSummaryRow (ticker : String) (data : PolyPayload) (now : ℤ) :
    SummaryRow :=
  { ticker := ticker
    name := data.name
    market_cap := data.market_cap
    current_price := data.current_price
    peRat := data.peRat
    revenue_growth := data.revenue_growth
    free_cash_flow := data.free_cash_flow
    profit_margin := data.profit_margin
    operating_margin := data.operating_margin
    roe := data.roe
    debt_to_equity := data.debt_to_equity
    dividend_yield := data.dividend_yield
    beta := data.beta
    price_52w_high := data.price_52w_high
    price_52w_low := data.price_52w_low
    next_earnings_date := data.next_earnings_date
    fetched_at := now }

/-- `StockDataClient._save_polygon_data`: delete the ticker's earnings rows,
insert one row per payload line, upsert the summary row keyed on the ticker,
and answer the formatted re-read of what was persisted. -/
def savePolygonData (ticker : String) (data : PolyPayload) (db : Db)
    (now : ℤ) (todayStr : String) : Response × Db :=
  let keep := db.earnings.filter (fun e => decide (e.ticker ≠ ticker))
  let currentP : ℚ := (data.current_price).getD 0
  let newRows := data.earnings.map (mkEarningsRow ticker data todayStr currentP)
  let newSum := mkSummaryRow ticker data now
  let others := db.summaries.filter (fun s => decide (s.ticker ≠ ticker))
  let db2 : Db := { summaries := others ++ [newSum]
                    earnings := keep ++ newRows }
  let s := ((db2.summaries.filter
      (fun s => decide (s.ticker = ticker))).head?).getD newSum
  let es := db2.earnings.filter (fun e => decide (e.ticker = ticker))
  (formatResponse ticker s es, db2)

deriving instance DecidableEq for Except

/-- The observable outcome of one `get_stock_data` call: the returned or
raised value, the store afterwards, and how many upstream Polygon fetches
and store write transactions happened. -/
structure OrchResult where
  result : Except StockError Response
  db : Db
  fetchCalls : ℕ
  dbWrites : ℕ
  deriving DecidableEq, Repr

/-- `StockDataClient.get_stock_data`.  `fetchOutcome` is what the single
Polygon fetch would produce if issued (`fetchCalls` records whether it was);
an unconfigured client serves any cached data with a warning, a fresh cache
hit short-circuits, a fetch failure falls back to stale cache annotated with
its age, and with no cache at all the classified error is raised. -/
def getStockData (cfg : Bool) (fetchOutcome : Except String PolyPayload)
    (db : Db) (now : ℤ) (todayStr : String) (tkr : String)
    (forceRefresh : Bool) : OrchResult :=
  let ticker := pyStrip (pyUpper tkr)
  if ¬cfg then
    match getCachedData db now ticker true with
    | some r => ⟨.ok { r with warning := some .notConfigured }, db, 0, 0⟩
    | none => ⟨.error .notConfiguredNoCache, db, 0, 0⟩
  else
    match (if forceRefresh then none else getCachedData db now ticker false) with
    | some r => ⟨.ok r, db, 0, 0⟩
    | none =>
      match fetchOutcome with
      | .ok data =>
        let rd := savePolygonData ticker data db now todayStr
        ⟨.ok rd.1, rd.2, 1, 1⟩
      | .error msg =>
        match getCachedData db now ticker true with
        | some stale =>
          let hours := getCacheAgeHours now stale.fetchedAtAnn
          ⟨.ok { stale with warning := some (.staleApi hours) }, db, 1, 0⟩
        | none => ⟨.error (classifyError ticker msg), db, 1, 0⟩

/-! ## Derived notions used in the statements -/

/-- The supplemental line `merge_with_polygon` actually matches to a primary
line: the date-keyed lookup at the primary line's truthy `fiscal_date`. -/
def matchedSupp (ests : List FinnhubRec) (p : EarningsLine) :
    Option FinnhubRec :=
  match p.fiscal_date with
  | none => none
  | some d => if d = "" then none else suppLookup ests d

/-- The value a candidate key extracts when present: `some v` when the key is
present with extracted value `v` (itself possibly null), `none` when the key
is absent. -/
def extractAt (sec : Section) (k : String) : Option (Option ℚ) :=
  (dictGet sec k).map (fun fd =>
    match fd with
    | .dictVal v => v
    | .rawVal x => some x)

/-- The first candidate value that is present and truthy (non-null,
nonzero). -/
def firstTruthy (sec : Section) (ks : List String) : Option ℚ :=
  ks.findSome? (fun k =>
    match extractAt sec k with
    | some (some v) => if v = 0 then none else some v
    | some none => none
    | none => none)

/-- The value extracted at the last present candidate, `none` when no
candidate is present. -/
def lastPresent (sec : Section) (ks : List String) : Option ℚ :=
  ((ks.filterMap (extractAt sec)).getLast?).getD none

/-! ## Concrete inputs used by witnesses and counterexamples -/

/-- The spec's merge-precedence example: a primary line with
`reported_eps = 1.50` and no estimate. -/
def pLineW : EarningsLine :=
  { fiscal_date := some "2024-03-31", period := "Q1"
    reported_eps := some (3/2), estimated_eps := none, surprise_pct := none
    revenue := none, free_cash_flow := none, peRat := none, price := none }

/-- The spec's merge-precedence example: a supplemental line at the same date
with `estimated_eps = 1.40` and `surprise_pct = 7.1`. -/
def fRecW : FinnhubRec :=
  { fiscal_date := some "2024-03-31", reported_eps := some (29/20)
    estimated_eps := some (7/5), surprise_pct := some (71/10)
    period := "2024-Q1" }

/-- The merged line the example produces. -/
def mergedW : EarningsLine :=
  { pLineW with estimated_eps := some (7/5), surprise_pct := some (71/10) }

/-- An earnings line with only a reported EPS, for the P/E computations. -/
def epsLine (q : ℚ) : EarningsLine :=
  { fiscal_date := some "2024-03-31", period := "Q1"
    reported_eps := some q, estimated_eps := none, surprise_pct := none
    revenue := none, free_cash_flow := none, peRat := none, price := none }

/-- An earnings line with no reported EPS. -/
def epsLineNone : EarningsLine :=
  { fiscal_date := some "2024-03-31", period := "Q1"
    reported_eps := none, estimated_eps := none, surprise_pct := none
    revenue := none, free_cash_flow := none, peRat := none, price := none }

/-- A summary row cached at time `0`, for the TTL and staleness scenarios. -/
def sumRowW : SummaryRow :=
  { ticker := "AAPL", name := "Apple", market_cap := none
    current_price := none, peRat := none, revenue_growth := none
    free_cash_flow := none, profit_margin := none, operating_margin := none
    roe := none, debt_to_equity := none, dividend_yield := none, beta := none
    price_52w_high := none, price_52w_low := none, next_earnings_date := none
    fetched_at := 0 }

/-- A store holding exactly the summary row above, no earnings. -/
def dbW : Db := { summaries := [sumRowW], earnings := [] }

/-- An old persisted earnings row at a given date, for the replace-not-merge
scenario. -/
def oldRow (d : String) : EarningsRow :=
  { ticker := "AAPL", fiscal_date := d, period := "Q1"
    reported_eps := some 1, estimated_eps := none, surprise_pct := none
    revenue := none, free_cash_flow := none, peRat := none, price := some 10 }

/-- A store holding eight old earnings rows for `"AAPL"` (plus one for
another ticker that must survive). -/
def dbW8 : Db :=
  { summaries := [sumRowW]
    earnings :=
      [oldRow "2022-03-31", oldRow "2022-06-30", oldRow "2022-09-30",
       oldRow "2022-12-31", oldRow "2023-03-31", oldRow "2023-06-30",
       oldRow "2023-09-30", oldRow "2023-12-31",
       { oldRow "2023-12-31" with ticker := "MSFT" }] }

/-- A payload carrying four fresh earnings lines. -/
def payloadW : PolyPayload :=
  { name := "Apple", market_cap := none, current_price := some 100
    peRat := some 25, revenue_growth := none, free_cash_flow := none
    profit_margin := none, operating_margin := none, roe := none
    debt_to_equity := none, dividend_yield := none, beta := none
    price_52w_high := none, price_52w_low := none, next_earnings_date := none
    earnings :=
      [epsLine 1, { epsLine 1 with fiscal_date := some "2024-06-30" },
       { epsLine 1 with fiscal_date := some "2024-09-30" },
       { epsLine 1 with fiscal_date := some "2024-12-31" }] }

/-- A well-formed Finnhub item a successful retry would have delivered. -/
def goodItemW : FinnhubItem :=
  { period := some "2024-Q1", actual := some 1, estimate := some 1
    surprisePercent := some 0 }

/-- A transport trace whose first response is a 429 and whose every later
response succeeds: a client that retried even once would obtain data. -/
def seq429W : ℕ → HttpOutcome := fun n =>
  if n = 0 then .status 429 (.items [goodItemW])
  else .status 200 (.items [goodItemW])

/-- An income statement carrying a zero first revenue candidate and a
non-zero second one. -/
def secZeroFiveW : Section :=
  [("revenues", .rawVal 0), ("total_revenue", .rawVal 5)]

/-- A quarterly financial statement whose income statement is the section
above. -/
def finW : Financial :=
  { filing_date := some "2024-03-31", period_of_report_date := none
    end_date := none, income_statement := secZeroFiveW
    cash_flow_statement := [] }

/-- A store with no rows at all, for the no-cache failure scenario. -/
def dbEmptyW : Db := { summaries := [], earnings := [] }

/-! ## Theorems -/

/-- Helper: what one step of the merge loop does, phrased through the
matched supplemental line. -/
theorem mergeOne_eq (ests : List FinnhubRec) (p : EarningsLine) :
    mergeOne ests p =
      match matchedSupp ests p with
      | none => p
      | some f =>
        { p with
          estimated_eps :=
            if f.estimated_eps ≠ none ∧ p.estimated_eps = none then
              f.estimated_eps
            else p.estimated_eps
          surprise_pct :=
            if f.surprise_pct ≠ none then f.surprise_pct
            else p.surprise_pct } := by
  unfold mergeOne matchedSupp
  cases hd : p.fiscal_date with
  | none => rfl
  | some d =>
    by_cases he : d = ""
    · simp [he]
    · simp only [he, if_false, ite_false]
      cases hs : suppLookup ests d with
      | none => rfl
      | some f =>
        by_cases h1 : f.estimated_eps ≠ none ∧ p.estimated_eps = none <;>
          by_cases h2 : f.surprise_pct ≠ none <;>
            simp [h1, h2, ← hd]

/-- Helper: with an empty supplemental list nothing matches. -/
theorem matchedSupp_nil (p : EarningsLine) : matchedSupp [] p = none := by
  unfold matchedSupp suppLookup
  cases p.fiscal_date <;> simp

/-- Helper: indexing the merge result. -/
theorem merge_getElem? (poly : List EarningsLine) (ests : List FinnhubRec)
    (i : ℕ) :
    (merge_with_polygon poly (some ests))[i]? =
      (poly[i]?).map (mergeOne ests) := by
  cases ests with
  | nil =>
    have h : merge_with_polygon poly (some []) = poly := rfl
    rw [h]
    cases hp : poly[i]? with
    | none => rfl
    | some p =>
      have h2 : mergeOne [] p = p := by rw [mergeOne_eq, matchedSupp_nil]
      simp [h2]
  | cons a as => simp [merge_with_polygon]

/-- C1: for every primary earnings list and supplemental estimate list the
merge matches lines by `fiscal_date`; a matched primary line keeps its
`reported_eps`, receives the supplemental `estimated_eps` exactly when its
own is unset, keeps its own `estimated_eps` otherwise, and takes the
supplemental `surprise_pct` whenever that value is present; an unmatched
primary line is returned unchanged. -/
theorem merge_estimates_precedence (poly : List EarningsLine)
    (ests : List FinnhubRec) (i : ℕ) (p r : EarningsLine)
    (hp : poly[i]? = some p)
    (hr : (merge_with_polygon poly (some ests))[i]? = some r) :
    r.reported_eps = p.reported_eps ∧
    (∀ f, matchedSupp ests p = some f →
      (p.estimated_eps = none → r.estimated_eps = f.estimated_eps) ∧
      (p.estimated_eps ≠ none → r.estimated_eps = p.estimated_eps) ∧
      (∀ v, f.surprise_pct = some v → r.surprise_pct = some v)) ∧
    (matchedSupp ests p = none → r = p) := by
  have hr2 : r = mergeOne ests p := by
    rw [merge_getElem?, hp] at hr
    simpa using hr.symm
  subst hr2
  rw [mergeOne_eq]
  cases hm : matchedSupp ests p with
  | none =>
    refine ⟨rfl, ?_, fun _ => rfl⟩
    intro f hf
    exact Option.noConfusion hf
  | some f =>
    refine ⟨rfl, ?_, ?_⟩
    · intro f2 hf2
      cases hf2
      refine ⟨?_, ?_, ?_⟩
      · intro hpe
        by_cases hfe : f.estimated_eps = none
        · simp [hfe, hpe]
        · simp [hfe, hpe]
      · intro hpe
        simp [hpe]
      · intro v hv
        simp [hv]
    · intro h
      exact Option.noConfusion h

/-- C1 witness: the spec's own example, matched at index `0`. -/
theorem merge_estimates_precedence_witness :
    [pLineW][0]? = some pLineW ∧
    (merge_with_polygon [pLineW] (some [fRecW]))[0]? = some mergedW ∧
    (mergedW.reported_eps = pLineW.reported_eps ∧
     (∀ f, matchedSupp [fRecW] pLineW = some f →
       (pLineW.estimated_eps = none → mergedW.estimated_eps = f.estimated_eps) ∧
       (pLineW.estimated_eps ≠ none →
         mergedW.estimated_eps = pLineW.estimated_eps) ∧
       (∀ v, f.surprise_pct = some v → mergedW.surprise_pct = some v)) ∧
     (matchedSupp [fRecW] pLineW = none → mergedW = pLineW)) := by
  refine ⟨rfl, ?_, ?_⟩
  · rfl
  · exact merge_estimates_precedence [pLineW] [fRecW] 0 pLineW mergedW rfl rfl

/-- C10: for every primary list and supplemental input (including `None`)
the merge keeps the list length and order, and every field other than
`estimated_eps` and `surprise_pct` of each output line equals the
corresponding primary line's field. -/
theorem merge_preserves_frame (poly : List EarningsLine)
    (fh : Option (List FinnhubRec)) :
    (merge_with_polygon poly fh).length = poly.length ∧
    ∀ (i : ℕ) (p r : EarningsLine), poly[i]? = some p →
      (merge_with_polygon poly fh)[i]? = some r →
      (r.fiscal_date = p.fiscal_date ∧ r.period = p.period ∧
       r.reported_eps = p.reported_eps ∧ r.revenue = p.revenue ∧
       r.free_cash_flow = p.free_cash_flow ∧ r.peRat = p.peRat ∧
       r.price = p.price) := by
  have frame : ∀ ests p, ((mergeOne ests p).fiscal_date = p.fiscal_date ∧
      (mergeOne ests p).period = p.period ∧
      (mergeOne ests p).reported_eps = p.reported_eps ∧
      (mergeOne ests p).revenue = p.revenue ∧
      (mergeOne ests p).free_cash_flow = p.free_cash_flow ∧
      (mergeOne ests p).peRat = p.peRat ∧
      (mergeOne ests p).price = p.price) := by
    intro ests p
    rw [mergeOne_eq]
    cases matchedSupp ests p with
    | none => exact ⟨rfl, rfl, rfl, rfl, rfl, rfl, rfl⟩
    | some f => exact ⟨rfl, rfl, rfl, rfl, rfl, rfl, rfl⟩
  constructor
  · cases fh with
    | none => rfl
    | some l =>
      cases l with
      | nil => rfl
      | cons a as => simp [merge_with_polygon]
  · intro i p r hp hr
    cases fh with
    | none =>
      have h0 : merge_with_polygon poly none = poly := rfl
      rw [h0, hp] at hr
      cases hr
      exact ⟨rfl, rfl, rfl, rfl, rfl, rfl, rfl⟩
    | some ests =>
      cases ests with
      | nil =>
        have h0 : merge_with_polygon poly (some []) = poly := rfl
        rw [h0, hp] at hr
        cases hr
        exact ⟨rfl, rfl, rfl, rfl, rfl, rfl, rfl⟩
      | cons a as =>
        rw [merge_getElem?, hp] at hr
        have : r = mergeOne (a :: as) p := by simpa using hr.symm
        subst this
        exact frame (a :: as) p

/-- Helper: every value collected into the TTM window is positive. -/
theorem posEpsWindow_pos (earnings : List EarningsLine) :
    ∀ x ∈ posEpsWindow earnings, 0 < x := by
  intro x hx
  unfold posEpsWindow at hx
  rw [List.mem_filterMap] at hx
  obtain ⟨e, _, he⟩ := hx
  revert he
  cases e.reported_eps with
  | none => intro h; exact Option.noConfusion h
  | some y =>
    by_cases hy : 0 < y
    · intro h
      simp only [hy, if_true] at h
      cases h
      exact hy
    · intro h
      simp only [hy, if_false, ite_false] at h
      exact Option.noConfusion h

/-- Helper: `_calculate_pe` written through `posEpsWindow`. -/
theorem calculate_pe_eq (p : ℚ) (earnings : List EarningsLine) :
    calculate_pe (some p) earnings =
      (if p = 0 then none
       else if 4 ≤ earnings.length then
         (if 3 ≤ (posEpsWindow earnings).length ∧ 0 < (posEpsWindow earnings).sum
          then some (pyRound 2 (p / (posEpsWindow earnings).sum))
          else none)
       else none) := rfl

/-- C2 counterexample: a company with only three reported quarters, all of
them positive EPS, still gets no P/E — the source also demands at least four
earnings records — contradicting the claim's "including when the company has
fewer than 4 reported quarters but at least 3 positive ones". -/
theorem calculate_pe_short_history_cex :
    3 ≤ (posEpsWindow [epsLine 1, epsLine 2, epsLine 3]).length ∧
    calculate_pe (some 10) [epsLine 1, epsLine 2, epsLine 3] = none := by
  constructor
  · norm_num +decide [posEpsWindow, epsLine, List.filterMap_cons]
  · norm_num +decide [calculate_pe, epsLine]

/-- C2 amended: P/E is computed exactly when the close price is present and
nonzero, at least FOUR earnings records exist, and at least three of the
most recent four carry a positive reported EPS; its value is then the price
divided by the sum of those positive EPS values, rounded to two decimals
(with three or more positive summands the source's extra `total > 0` check
is automatic). -/
theorem calculate_pe_spec (price : Option ℚ) (earnings : List EarningsLine) :
    (∀ p : ℚ, price = some p → p ≠ 0 → 4 ≤ earnings.length →
      3 ≤ (posEpsWindow earnings).length →
      calculate_pe price earnings =
        some (pyRound 2 (p / (posEpsWindow earnings).sum))) ∧
    ((calculate_pe price earnings).isSome ↔
      ∃ p : ℚ, price = some p ∧ p ≠ 0 ∧ 4 ≤ earnings.length ∧
        3 ≤ (posEpsWindow earnings).length) := by
  have hsum : 3 ≤ (posEpsWindow earnings).length →
      0 < (posEpsWindow earnings).sum := by
    intro h3
    refine List.sum_pos _ (posEpsWindow_pos earnings) ?_
    intro hnil
    rw [hnil] at h3
    simp at h3
  constructor
  · intro p hp hp0 hlen h3
    subst hp
    rw [calculate_pe_eq]
    simp [hp0, hlen, h3, hsum h3]
  · cases price with
    | none =>
      constructor
      · intro h
        simp [calculate_pe] at h
      · rintro ⟨p, hp, _⟩
        exact Option.noConfusion hp
    | some p =>
      rw [calculate_pe_eq]
      by_cases hp0 : p = 0
      · simp [hp0]
      · by_cases hlen : 4 ≤ earnings.length
        · by_cases h3 : 3 ≤ (posEpsWindow earnings).length
          · simp [hp0, hlen, h3, hsum h3]
          · simp [hp0, hlen, h3]
        · simp [hp0, hlen]

/-- C2 witness: the spec's own example window `[0.5, None, 0.6, 0.4]` at
price 10, whose P/E the amended claim computes as `round(10 / 1.5, 2)`. -/
theorem calculate_pe_spec_witness :
    (some (10 : ℚ) = some 10 ∧ (10 : ℚ) ≠ 0 ∧
     4 ≤ ([epsLine (1/2), epsLineNone, epsLine (3/5), epsLine (2/5)] :
        List EarningsLine).length ∧
     3 ≤ (posEpsWindow
        [epsLine (1/2), epsLineNone, epsLine (3/5), epsLine (2/5)]).length) ∧
    calculate_pe (some 10)
        [epsLine (1/2), epsLineNone, epsLine (3/5), epsLine (2/5)] =
      some (pyRound 2 (10 /
        (posEpsWindow
          [epsLine (1/2), epsLineNone, epsLine (3/5), epsLine (2/5)]).sum)) := by
  have h1 : (10 : ℚ) ≠ 0 := by norm_num
  have h2 : 4 ≤ ([epsLine (1/2), epsLineNone, epsLine (3/5), epsLine (2/5)] :
      List EarningsLine).length := by norm_num
  have h3 : 3 ≤ (posEpsWindow
      [epsLine (1/2), epsLineNone, epsLine (3/5), epsLine (2/5)]).length := by
    norm_num +decide [posEpsWindow, epsLine, epsLineNone, List.filterMap_cons]
  exact ⟨⟨rfl, h1, h2, h3⟩,
    (calculate_pe_spec (some 10) _).1 10 rfl h1 h2 h3⟩

/-- Helper: a cached summary row makes the non-stale read a hit exactly up
to the TTL bound. -/
theorem getCachedData_fresh (db : Db) (now : ℤ) (t : String) (s : SummaryRow)
    (hs : (db.summaries.filter (fun x => decide (x.ticker = t))).head?
        = some s)
    (hfresh : now - s.fetched_at ≤ maxTTL) :
    getCachedData db now t false =
      some { formatResponse t s
              (db.earnings.filter (fun e => decide (e.ticker = t))) with
            fetchedAtAnn := some s.fetched_at
            cacheAgeHours :=
              some (pyRound 1 (((now - s.fetched_at : ℤ) : ℚ) / 3600)) } := by
  unfold getCachedData
  rw [hs]
  simp [Int.not_lt.mpr hfresh]

/-- Helper: a cached summary row always makes the stale-tolerant read a
hit. -/
theorem getCachedData_stale (db : Db) (now : ℤ) (t : String) (s : SummaryRow)
    (hs : (db.summaries.filter (fun x => decide (x.ticker = t))).head?
        = some s) :
    getCachedData db now t true =
      some { formatResponse t s
              (db.earnings.filter (fun e => decide (e.ticker = t))) with
            fetchedAtAnn := some s.fetched_at
            cacheAgeHours :=
              some (pyRound 1 (((now - s.fetched_at : ℤ) : ℚ) / 3600)) } := by
  unfold getCachedData
  rw [hs]
  simp

/-- Helper: with no summary row every cache read misses. -/
theorem getCachedData_none (db : Db) (now : ℤ) (t : String) (b : Bool)
    (hs : (db.summaries.filter (fun x => decide (x.ticker = t))).head?
        = none) :
    getCachedData db now t b = none := by
  unfold getCachedData
  rw [hs]

/-- C3 counterexample: a record aged exactly the maximal TTL (24h) is still
served by the non-stale read, refuting "served if and only if
now − fetched_at is strictly less than the maximum TTL". -/
theorem read_fresh_boundary_cex :
    (getCachedData dbW 86400 "AAPL" false).isSome = true ∧
    ¬((86400 : ℤ) - sumRowW.fetched_at < maxTTL) := by
  constructor
  · norm_num +decide [getCachedData, dbW, sumRowW, maxTTL, cacheTTLPrice,
      cacheTTLFinancials, cacheTTLCompanyInfo, List.filter]
  · norm_num +decide [sumRowW, maxTTL, cacheTTLPrice, cacheTTLFinancials,
      cacheTTLCompanyInfo]

/-- C3 amended: for a ticker with a cached summary the non-stale read
returns the snapshot iff `now − fetched_at ≤ max TTL` — the boundary age is
served, only strictly older records miss; a record aged max TTL − 1 is
served and one aged max TTL + 1 misses. -/
theorem read_fresh_iff (db : Db) (now : ℤ) (t : String) (s : SummaryRow)
    (hs : (db.summaries.filter (fun x => decide (x.ticker = t))).head?
        = some s) :
    ((getCachedData db now t false).isSome ↔ now - s.fetched_at ≤ maxTTL) := by
  unfold getCachedData
  rw [hs]
  by_cases hlt : maxTTL < now - s.fetched_at
  · simp [hlt, not_le.mpr hlt]
  · simp [hlt, not_lt.mp hlt]

/-- C3 witness: the boundary instances one unit inside and one unit outside
the window. -/
theorem read_fresh_iff_witness :
    ((dbW.summaries.filter (fun x => decide (x.ticker = "AAPL"))).head?
        = some sumRowW) ∧
    ((getCachedData dbW 86399 "AAPL" false).isSome ↔
      (86399 : ℤ) - sumRowW.fetched_at ≤ maxTTL) ∧
    ((getCachedData dbW 86401 "AAPL" false).isSome ↔
      (86401 : ℤ) - sumRowW.fetched_at ≤ maxTTL) := by
  refine ⟨rfl, ?_, ?_⟩
  · exact read_fresh_iff dbW 86399 "AAPL" sumRowW rfl
  · exact read_fresh_iff dbW 86401 "AAPL" sumRowW rfl

/-- Helper: when the cache check misses (forced or genuinely missing) and
the Polygon fetch fails, `get_stock_data` reaches the stale-fallback match. -/
theorem getStockData_error_path (db : Db) (now : ℤ) (today tkr msg : String)
    (force : Bool)
    (hmiss : force = true ∨
      getCachedData db now (pyStrip (pyUpper tkr)) false = none) :
    getStockData true (Except.error msg) db now today tkr force =
      match getCachedData db now (pyStrip (pyUpper tkr)) true with
      | some stale =>
        { result :=
            Except.ok
              { stale with
                warning := some (Warn.staleApi
                  (getCacheAgeHours now stale.fetchedAtAnn)) }
          db := db
          fetchCalls := 1
          dbWrites := 0 }
      | none =>
        { result :=
            Except.error (classifyError (pyStrip (pyUpper tkr)) msg)
          db := db
          fetchCalls := 1
          dbWrites := 0 } := by
  unfold getStockData
  cases hmiss with
  | inl h => subst h; rfl
  | inr h =>
    cases force with
    | true => rfl
    | false => simp [h]

/-- C4: whenever the Polygon fetch fails and any summary row exists for the
ticker — regardless of its age — `get_stock_data` returns the cached
snapshot as a successful result (it does not raise), with a staleness
warning carrying the cache age in hours, `round((now − fetched_at)/3600, 1)`,
and performs no store write. -/
theorem stale_serving (db : Db) (now : ℤ) (today tkr t msg : String)
    (force : Bool) (s : SummaryRow)
    (ht : t = pyStrip (pyUpper tkr))
    (hs : (db.summaries.filter (fun x => decide (x.ticker = t))).head?
        = some s)
    (hmiss : force = true ∨ getCachedData db now t false = none) :
    (getStockData true (Except.error msg) db now today tkr force).result =
      Except.ok
        { formatResponse t s
            (db.earnings.filter (fun e => decide (e.ticker = t))) with
          fetchedAtAnn := some s.fetched_at
          cacheAgeHours :=
            some (pyRound 1 (((now - s.fetched_at : ℤ) : ℚ) / 3600))
          warning :=
            some (.staleApi
              (pyRound 1 (((now - s.fetched_at : ℤ) : ℚ) / 3600))) } ∧
    (getStockData true (Except.error msg) db now today tkr force).fetchCalls
        = 1 ∧
    (getStockData true (Except.error msg) db now today tkr force).dbWrites
        = 0 ∧
    (getStockData true (Except.error msg) db now today tkr force).db = db := by
  subst ht
  rw [getStockData_error_path db now today tkr msg force hmiss,
    getCachedData_stale db now _ s hs]
  exact ⟨rfl, rfl, rfl, rfl⟩

/-- C4 witness: a forced refresh at time 1800 with the fetch failing over a
half-hour-old cache serves the snapshot with a 0.5-hour staleness warning. -/
theorem stale_serving_witness :
    ("AAPL" : String) = pyStrip (pyUpper "AAPL") ∧
    ((dbW.summaries.filter (fun x => decide (x.ticker = "AAPL"))).head?
        = some sumRowW) ∧
    ((getStockData true (Except.error "boom") dbW 1800 "2024-01-01" "AAPL"
        true).result =
      Except.ok
        { formatResponse "AAPL" sumRowW
            (dbW.earnings.filter (fun e => decide (e.ticker = "AAPL"))) with
          fetchedAtAnn := some sumRowW.fetched_at
          cacheAgeHours :=
            some (pyRound 1 (((1800 - sumRowW.fetched_at : ℤ) : ℚ) / 3600))
          warning :=
            some (.staleApi
              (pyRound 1 (((1800 - sumRowW.fetched_at : ℤ) : ℚ) / 3600))) } ∧
     (getStockData true (Except.error "boom") dbW 1800 "2024-01-01" "AAPL"
        true).fetchCalls = 1 ∧
     (getStockData true (Except.error "boom") dbW 1800 "2024-01-01" "AAPL"
        true).dbWrites = 0 ∧
     (getStockData true (Except.error "boom") dbW 1800 "2024-01-01" "AAPL"
        true).db = dbW) := by
  refine ⟨by decide, rfl, ?_⟩
  exact stale_serving dbW 1800 "2024-01-01" "AAPL" "AAPL" "boom" true sumRowW
    (by decide) rfl (Or.inl rfl)

/-- C5: with the fetch failing and no summary row at all for the ticker,
`get_stock_data` raises the error classified from the upstream message by
the source's ordered checks: first a 429/rate-limit indicator, then a
404/not-found indicator, then a 401/unauthorized indicator, and otherwise
the generic could-not-fetch error. -/
theorem no_cache_error (db : Db) (now : ℤ) (today tkr t msg : String)
    (force : Bool)
    (ht : t = pyStrip (pyUpper tkr))
    (hs : (db.summaries.filter (fun x => decide (x.ticker = t))).head?
        = none) :
    (getStockData true (Except.error msg) db now today tkr force).result =
      Except.error (classifyError t msg) ∧
    ((strContains msg "429" || strContains (pyLower msg) "rate limit")
        = true → classifyError t msg = .rateLimited t) ∧
    ((strContains msg "429" || strContains (pyLower msg) "rate limit")
        = false →
     (strContains msg "404" || strContains (pyLower msg) "not found")
        = true → classifyError t msg = .notFound t) ∧
    ((strContains msg "429" || strContains (pyLower msg) "rate limit")
        = false →
     (strContains msg "404" || strContains (pyLower msg) "not found")
        = false →
     (strContains msg "401" || strContains (pyLower msg) "unauthorized")
        = true → classifyError t msg = .authFailed) ∧
    ((strContains msg "429" || strContains (pyLower msg) "rate limit")
        = false →
     (strContains msg "404" || strContains (pyLower msg) "not found")
        = false →
     (strContains msg "401" || strContains (pyLower msg) "unauthorized")
        = false → classifyError t msg = .couldNotFetch t msg) := by
  subst ht
  refine ⟨?_, ?_, ?_, ?_, ?_⟩
  · rw [getStockData_error_path db now today tkr msg force
      (Or.inr (getCachedData_none db now _ false hs)),
      getCachedData_none db now _ true hs]
  · intro h1
    unfold classifyError
    simp [h1]
  · intro h1 h2
    unfold classifyError
    simp [h1, h2]
  · intro h1 h2 h3
    unfold classifyError
    simp [h1, h2, h3]
  · intro h1 h2 h3
    unfold classifyError
    simp [h1, h2, h3]

/-- C5 witness: an empty store and a simulated 429 message raise the
rate-limited error. -/
theorem no_cache_error_witness :
    ("AAPL" : String) = pyStrip (pyUpper "AAPL") ∧
    ((dbEmptyW.summaries.filter
        (fun x => decide (x.ticker = "AAPL"))).head? = none) ∧
    (getStockData true (Except.error "HTTP 429") dbEmptyW 0 "2024-01-01"
        "AAPL" false).result =
      Except.error (classifyError "AAPL" "HTTP 429") ∧
    (strContains "HTTP 429" "429" ||
        strContains (pyLower "HTTP 429") "rate limit") = true ∧
    classifyError "AAPL" "HTTP 429" = .rateLimited "AAPL" := by
  refine ⟨by decide, rfl, ?_, by decide, ?_⟩
  · exact (no_cache_error dbEmptyW 0 "2024-01-01" "AAPL" "AAPL" "HTTP 429"
      false (by decide) rfl).1
  · exact (no_cache_error dbEmptyW 0 "2024-01-01" "AAPL" "AAPL" "HTTP 429"
      false (by decide) rfl).2.1 (by decide)

/-- C6: the cache write deletes every previously persisted earnings row of
the ticker and inserts exactly one row per payload line, so afterwards the
persisted earnings set for the ticker is exactly the rows built from the new
payload — none of the old rows survive — while rows of other tickers are
untouched. -/
theorem save_replaces_earnings (t : String) (data : PolyPayload) (db : Db)
    (now : ℤ) (today : String) :
    ((savePolygonData t data db now today).2).earnings.filter
        (fun e => decide (e.ticker = t)) =
      data.earnings.map
        (mkEarningsRow t data today ((data.current_price).getD 0)) ∧
    (((savePolygonData t data db now today).2).earnings.filter
        (fun e => decide (e.ticker = t))).length = data.earnings.length ∧
    ((savePolygonData t data db now today).2).earnings.filter
        (fun e => decide (¬e.ticker = t)) =
      db.earnings.filter (fun e => decide (¬e.ticker = t)) := by
  have hdb2 : ((savePolygonData t data db now today).2).earnings =
      db.earnings.filter (fun e => decide (e.ticker ≠ t)) ++
      data.earnings.map
        (mkEarningsRow t data today ((data.current_price).getD 0)) := rfl
  have hA : (db.earnings.filter (fun e => decide (e.ticker ≠ t))).filter
      (fun e => decide (e.ticker = t)) = [] := by
    rw [List.filter_eq_nil_iff]
    intro a ha
    rw [List.mem_filter] at ha
    simp only [decide_eq_true_eq] at ha ⊢
    exact ha.2
  have hB : (data.earnings.map
        (mkEarningsRow t data today ((data.current_price).getD 0))).filter
      (fun e => decide (e.ticker = t)) =
      data.earnings.map
        (mkEarningsRow t data today ((data.current_price).getD 0)) := by
    rw [List.filter_eq_self]
    intro a ha
    rw [List.mem_map] at ha
    obtain ⟨b, _, hb⟩ := ha
    subst hb
    simp [mkEarningsRow]
  have hA2 : (db.earnings.filter (fun e => decide (e.ticker ≠ t))).filter
      (fun e => decide (¬e.ticker = t)) =
      db.earnings.filter (fun e => decide (¬e.ticker = t)) := by
    simp only [ne_eq, List.filter_filter, Bool.and_self]
  have hB2 : (data.earnings.map
        (mkEarningsRow t data today ((data.current_price).getD 0))).filter
      (fun e => decide (¬e.ticker = t)) = [] := by
    rw [List.filter_eq_nil_iff]
    intro a ha
    rw [List.mem_map] at ha
    obtain ⟨b, _, hb⟩ := ha
    subst hb
    simp [mkEarningsRow]
  refine ⟨?_, ?_, ?_⟩
  · rw [hdb2, List.filter_append, hA, hB, List.nil_append]
  · rw [hdb2, List.filter_append, hA, hB, List.nil_append, List.length_map]
  · rw [hdb2, List.filter_append, hA2, hB2, List.append_nil]

/-- C6 witness: a ticker holding eight rows written with a four-line payload
ends with exactly those four rows, the other ticker's row surviving. -/
theorem save_replaces_earnings_witness :
    ((savePolygonData "AAPL" payloadW dbW8 99 "2024-12-31").2).earnings.filter
        (fun e => decide (e.ticker = "AAPL")) =
      payloadW.earnings.map
        (mkEarningsRow "AAPL" payloadW "2024-12-31"
          ((payloadW.current_price).getD 0)) ∧
    (((savePolygonData "AAPL" payloadW dbW8 99 "2024-12-31").2).earnings.filter
        (fun e => decide (e.ticker = "AAPL"))).length =
      payloadW.earnings.length ∧
    ((savePolygonData "AAPL" payloadW dbW8 99 "2024-12-31").2).earnings.filter
        (fun e => decide (¬e.ticker = "AAPL")) =
      dbW8.earnings.filter (fun e => decide (¬e.ticker = "AAPL")) :=
  save_replaces_earnings "AAPL" payloadW dbW8 99 "2024-12-31"

/-- Helper: the single-request fetch block issues exactly one request, and
yields `None` on every failing outcome. -/
theorem fhFetch_failure (cache : Option FhCache) (now : ℤ) (o : HttpOutcome) :
    (fhFetch cache now o).requests = 1 ∧
    (failureOutcome o = true → (fhFetch cache now o).result = none) := by
  cases o with
  | exn => exact ⟨rfl, fun _ => rfl⟩
  | status code body =>
    by_cases h1 : code = 429
    · simp [fhFetch, h1]
    · by_cases h2 : code = 403
      · simp [fhFetch, h1, h2]
      · by_cases h3 : 400 ≤ code
        · simp [fhFetch, h1, h2, h3]
        · cases body with
          | parseError => simp [fhFetch, failureOutcome, h1, h2, h3]
          | notAList => simp [fhFetch, failureOutcome, h1, h2, h3]
          | items l =>
            cases l with
            | nil => simp [fhFetch, failureOutcome, h1, h2, h3]
            | cons a as => simp [fhFetch, failureOutcome, h1, h2, h3]

/-- C7 counterexample: with the first response a 429 and every later
response a success, the estimate fetch performs exactly one request and
returns `None` — it never retries, although the very first retry would have
delivered data (a client whose single attempt sees the next response in the
trace succeeds). -/
theorem finnhub_no_retry_cex :
    (get_earnings_estimates true none 0 seq429W).result = none ∧
    (get_earnings_estimates true none 0 seq429W).requests = 1 ∧
    (get_earnings_estimates true none 0 (fun n => seq429W (n + 1))).result =
      some ([goodItemW].map parseFinnhubItem) := by
  refine ⟨?_, ?_, ?_⟩ <;> rfl

/-- C7 amended: the estimate fetch issues at most one upstream request per
call — on rate-limiting (as on every other failure: bad credential,
transport or parse error, empty or non-list body) it gives up immediately
with `None` rather than retrying or raising. -/
theorem finnhub_single_attempt (cfg : Bool) (cache : Option FhCache)
    (now : ℤ) (seq : ℕ → HttpOutcome) :
    (get_earnings_estimates cfg cache now seq).requests ≤ 1 ∧
    ((get_earnings_estimates cfg cache now seq).requests = 1 →
      failureOutcome (seq 0) = true →
      (get_earnings_estimates cfg cache now seq).result = none) := by
  cases cfg with
  | false =>
    constructor
    · simp [get_earnings_estimates]
    · intro h
      simp [get_earnings_estimates] at h
  | true =>
    have hf := fhFetch_failure cache now (seq 0)
    cases cache with
    | none =>
      have he : get_earnings_estimates true none now seq =
          fhFetch none now (seq 0) := rfl
      rw [he]
      exact ⟨le_of_eq hf.1, fun _ => hf.2⟩
    | some c =>
      by_cases hfresh : now - c.timestamp < fhCacheTTL
      · have he : get_earnings_estimates true (some c) now seq =
            ⟨some c.data, 0, some c⟩ := by
          simp [get_earnings_estimates, hfresh]
        rw [he]
        exact ⟨by norm_num, by intro h; exact absurd h (by norm_num)⟩
      · have he : get_earnings_estimates true (some c) now seq =
            fhFetch (some c) now (seq 0) := by
          simp [get_earnings_estimates, hfresh]
        rw [he]
        exact ⟨le_of_eq hf.1, fun _ => hf.2⟩

/-- C7 witness: the counterexample trace, through the amended theorem: one
request, and the 429 outcome forces a `None` result. -/
theorem finnhub_single_attempt_witness :
    (get_earnings_estimates true none 0 seq429W).requests ≤ 1 ∧
    ((get_earnings_estimates true none 0 seq429W).requests = 1 →
      failureOutcome (seq429W 0) = true →
      (get_earnings_estimates true none 0 seq429W).result = none) ∧
    failureOutcome (seq429W 0) = true :=
  ⟨(finnhub_single_attempt true none 0 seq429W).1,
   (finnhub_single_attempt true none 0 seq429W).2, rfl⟩

/-- Helper: one candidate step is the extracted value when the key is
present, the unchanged accumulator otherwise. -/
theorem candStep_extract (sec : Section) (acc : Option ℚ) (k : String) :
    candStep sec acc k = (extractAt sec k).getD acc := by
  unfold candStep extractAt
  cases dictGet sec k with
  | none => rfl
  | some fd => cases fd <;> rfl

/-- Helper: the candidate loop from any non-truthy accumulator yields the
first truthy candidate value, else the last present extraction, else the
accumulator. -/
theorem candLoop_acc (sec : Section) :
    ∀ (ks : List String) (acc : Option ℚ), truthyQ acc = false →
    candLoop sec ks acc =
      (match firstTruthy sec ks with
       | some v => some v
       | none =>
         match (ks.filterMap (extractAt sec)).getLast? with
         | some v => v
         | none => acc) := by
  intro ks
  induction ks with
  | nil =>
    intro acc hacc
    simp [candLoop, firstTruthy, List.findSome?]
  | cons k ks ih =>
    intro acc hacc
    rw [show candLoop sec (k :: ks) acc =
        (if truthyQ (candStep sec acc k) then candStep sec acc k
         else candLoop sec ks (candStep sec acc k)) from rfl]
    rw [candStep_extract]
    cases hx : extractAt sec k with
    | none =>
      simp only [hx, Option.getD_none]
      rw [hacc]
      simp only [Bool.false_eq_true, if_false, ite_false]
      rw [ih acc hacc]
      have h1 : firstTruthy sec (k :: ks) = firstTruthy sec ks := by
        unfold firstTruthy
        rw [List.findSome?_cons]
        simp [hx]
      have h2 : (k :: ks).filterMap (extractAt sec)
          = ks.filterMap (extractAt sec) := by
        rw [List.filterMap_cons]
        simp [hx]
      rw [h1, h2]
    | some v =>
      simp only [hx, Option.getD_some]
      cases htv : truthyQ v with
      | true =>
        simp only [htv, if_true]
        cases v with
        | none => simp [truthyQ] at htv
        | some x =>
          have hx0 : ¬x = 0 := by simpa [truthyQ] using htv
          have h1 : firstTruthy sec (k :: ks) = some x := by
            unfold firstTruthy
            rw [List.findSome?_cons]
            simp [hx, hx0]
          rw [h1]
      | false =>
        simp only [htv, Bool.false_eq_true, if_false, ite_false]
        rw [ih v htv]
        have hfk : (match extractAt sec k with
             | some (some w) => if w = 0 then none else some w
             | some none => none
             | none => none : Option ℚ) = none := by
          cases v with
          | none => simp [hx]
          | some x =>
            have hx0 : x = 0 := by
              by_contra hc
              simp [truthyQ, hc] at htv
            simp [hx, hx0]
        have h1 : firstTruthy sec (k :: ks) = firstTruthy sec ks := by
          unfold firstTruthy
          rw [List.findSome?_cons, hfk]
        have h2 : (k :: ks).filterMap (extractAt sec)
            = v :: ks.filterMap (extractAt sec) := by
          rw [List.filterMap_cons, hx]
        rw [h1, h2, List.getLast?_cons]
        cases hft : firstTruthy sec ks with
        | some w => rfl
        | none =>
          cases hgl : (ks.filterMap (extractAt sec)).getLast? with
          | some u => simp [hgl]
          | none => simp [hgl]

/-- C8 counterexample: with `revenues` present but zero and `total_revenue`
present as 5, the source's loop answers 5 while "first present, non-null
value wins (including zero)" demands 0 — a present zero does not stop the
candidate scan. -/
theorem candidate_zero_cex :
    candLoop secZeroFiveW revenueKeys none = some 5 ∧
    specFirstPresentNonNull secZeroFiveW revenueKeys = some 0 ∧
    (buildLine finW "2024-03-31" (some 3)).revenue = some 5 ∧
    candLoop secZeroFiveW revenueKeys none ≠
      specFirstPresentNonNull secZeroFiveW revenueKeys := by
  refine ⟨?_, ?_, ?_, ?_⟩ <;> decide

/-- C8 amended: each concept's metric is the candidate loop over that
concept's ordered key list, and the loop takes the first candidate whose
extracted value is present and truthy (non-null and nonzero); when no
candidate is truthy the metric is the value extracted at the last present
candidate (possibly zero or null), and `None` when no candidate is present —
in no case an error. -/
theorem candidate_field_lookup (fin : Financial) (d : String) (m : Option ℕ)
    (sec : Section) (ks : List String) :
    ((buildLine fin d m).revenue
        = candLoop fin.income_statement revenueKeys none ∧
     (buildLine fin d m).reported_eps
        = candLoop fin.income_statement epsKeys none ∧
     (buildLine fin d m).free_cash_flow
        = candLoop fin.cash_flow_statement fcfKeys none) ∧
    candLoop sec ks none =
      (match firstTruthy sec ks with
       | some v => some v
       | none => lastPresent sec ks) := by
  refine ⟨⟨rfl, rfl, rfl⟩, ?_⟩
  rw [candLoop_acc sec ks none rfl]
  unfold lastPresent
  cases firstTruthy sec ks with
  | some w => rfl
  | none =>
    cases (ks.filterMap (extractAt sec)).getLast? with
    | some u => simp
    | none => simp

/-- Helper: a fresh cache hit short-circuits the orchestrator: no fetch, no
write, the store untouched, the annotated snapshot returned. -/
theorem getStockData_cache_hit (db : Db) (now : ℤ) (today tkr : String)
    (fo : Except String PolyPayload) (s : SummaryRow)
    (hs : (db.summaries.filter
        (fun x => decide (x.ticker = pyStrip (pyUpper tkr)))).head? = some s)
    (hfresh : now - s.fetched_at ≤ maxTTL) :
    getStockData true fo db now today tkr false =
      { result := Except.ok
          { formatResponse (pyStrip (pyUpper tkr)) s
              (db.earnings.filter
                (fun e => decide (e.ticker = pyStrip (pyUpper tkr)))) with
            fetchedAtAnn := some s.fetched_at
            cacheAgeHours :=
              some (pyRound 1 (((now - s.fetched_at : ℤ) : ℚ) / 3600)) }
        db := db
        fetchCalls := 0
        dbWrites := 0 } := by
  have h0 : getStockData true fo db now today tkr false =
      (match getCachedData db now (pyStrip (pyUpper tkr)) false with
       | some r => ⟨.ok r, db, 0, 0⟩
       | none =>
         match fo with
         | .ok data =>
           let rd := savePolygonData (pyStrip (pyUpper tkr)) data db now today
           ⟨.ok rd.1, rd.2, 1, 1⟩
         | .error msg =>
           match getCachedData db now (pyStrip (pyUpper tkr)) true with
           | some stale =>
             ⟨.ok { stale with warning := some (.staleApi
                 (getCacheAgeHours now stale.fetchedAtAnn)) }, db, 1, 0⟩
           | none =>
             ⟨.error (classifyError (pyStrip (pyUpper tkr)) msg),
              db, 1, 0⟩) := rfl
  rw [h0, getCachedData_fresh db now _ s hs hfresh]

/-- C9 counterexample: two non-forced reads of the same fresh cache, half an
hour apart, both perform zero fetches and zero writes, but the response
contents differ: the embedded `_cache_age_hours` advances from 0.0 to 0.5,
so the outputs are not byte-identical. -/
theorem idempotent_reads_cex :
    (getStockData true (Except.error "x") dbW 0 "2024-01-01" "AAPL"
        false).fetchCalls = 0 ∧
    (getStockData true (Except.error "x") dbW 0 "2024-01-01" "AAPL"
        false).dbWrites = 0 ∧
    (getStockData true (Except.error "x") dbW 1800 "2024-01-01" "AAPL"
        false).fetchCalls = 0 ∧
    (getStockData true (Except.error "x") dbW 1800 "2024-01-01" "AAPL"
        false).dbWrites = 0 ∧
    ((0 : ℤ) - sumRowW.fetched_at ≤ maxTTL) ∧
    ((1800 : ℤ) - sumRowW.fetched_at ≤ maxTTL) ∧
    (getStockData true (Except.error "x") dbW 0 "2024-01-01" "AAPL"
        false).result ≠
      (getStockData true (Except.error "x") dbW 1800 "2024-01-01" "AAPL"
        false).result := by
  refine ⟨?_, ?_, ?_, ?_, ?_, ?_, ?_⟩ <;>
    norm_num +decide [getStockData, getCachedData, dbW, sumRowW, maxTTL,
      cacheTTLPrice, cacheTTLFinancials, cacheTTLCompanyInfo, List.filter,
      pyUpper, pyStrip, formatResponse, sortByDateDesc, pyRound,
      roundHalfEven, getCacheAgeHours]

/-- C9 amended: two non-forced calls over a fresh cache each perform zero
upstream fetches and zero store writes and leave the store unchanged; their
responses agree on everything except the `_cache_age_hours` annotation, and
are identical exactly when the two calls round the cache age to the same
tenth of an hour (in particular when they observe the same clock value). -/
theorem idempotent_reads (db : Db) (t1 t2 : ℤ) (today tkr tk : String)
    (fo1 fo2 : Except String PolyPayload) (s : SummaryRow)
    (ht : tk = pyStrip (pyUpper tkr))
    (hs : (db.summaries.filter (fun x => decide (x.ticker = tk))).head?
        = some s)
    (h1 : t1 - s.fetched_at ≤ maxTTL) (h2 : t2 - s.fetched_at ≤ maxTTL) :
    (getStockData true fo1 db t1 today tkr false).fetchCalls = 0 ∧
    (getStockData true fo1 db t1 today tkr false).dbWrites = 0 ∧
    (getStockData true fo1 db t1 today tkr false).db = db ∧
    (getStockData true fo2 db t2 today tkr false).fetchCalls = 0 ∧
    (getStockData true fo2 db t2 today tkr false).dbWrites = 0 ∧
    (getStockData true fo2 db t2 today tkr false).db = db ∧
    (∃ r1 r2 : Response,
      (getStockData true fo1 db t1 today tkr false).result = Except.ok r1 ∧
      (getStockData true fo2 db t2 today tkr false).result = Except.ok r2 ∧
      { r1 with cacheAgeHours := none } = { r2 with cacheAgeHours := none } ∧
      r1.cacheAgeHours =
        some (pyRound 1 (((t1 - s.fetched_at : ℤ) : ℚ) / 3600)) ∧
      r2.cacheAgeHours =
        some (pyRound 1 (((t2 - s.fetched_at : ℤ) : ℚ) / 3600)) ∧
      (pyRound 1 (((t1 - s.fetched_at : ℤ) : ℚ) / 3600) =
          pyRound 1 (((t2 - s.fetched_at : ℤ) : ℚ) / 3600) → r1 = r2)) := by
  subst ht
  rw [getStockData_cache_hit db t1 today tkr fo1 s hs h1,
    getStockData_cache_hit db t2 today tkr fo2 s hs h2]
  refine ⟨rfl, rfl, rfl, rfl, rfl, rfl, _, _, rfl, rfl, rfl, rfl, rfl, ?_⟩
  intro h
  exact congrArg (fun q =>
    { formatResponse (pyStrip (pyUpper tkr)) s
        (db.earnings.filter
          (fun e => decide (e.ticker = pyStrip (pyUpper tkr)))) with
      fetchedAtAnn := some s.fetched_at
      cacheAgeHours := some q }) h

/-- C9 witness: the amended idempotence instantiated on the concrete store,
with the two calls at times 0 and 1800. -/
theorem idempotent_reads_witness :
    ("AAPL" : String) = pyStrip (pyUpper "AAPL") ∧
    ((dbW.summaries.filter (fun x => decide (x.ticker = "AAPL"))).head?
        = some sumRowW) ∧
    ((0 : ℤ) - sumRowW.fetched_at ≤ maxTTL) ∧
    ((1800 : ℤ) - sumRowW.fetched_at ≤ maxTTL) ∧
    ((getStockData true (Except.error "x") dbW 0 "2024-01-01" "AAPL"
        false).fetchCalls = 0 ∧
     (getStockData true (Except.error "x") dbW 0 "2024-01-01" "AAPL"
        false).dbWrites = 0) := by
  have h := idempotent_reads dbW 0 1800 "2024-01-01" "AAPL" "AAPL"
    (Except.error "x") (Except.error "x") sumRowW (by decide) rfl
    (by decide) (by decide)
  exact ⟨by decide, rfl, by decide, by decide, h.1, h.2.1⟩

/-- C10 witness: the frame conclusion instantiated on the spec's merge
example, hypotheses discharged at index 0. -/
theorem merge_preserves_frame_witness :
    (merge_with_polygon [pLineW] (some [fRecW])).length = [pLineW].length ∧
    ([pLineW][0]? = some pLineW ∧
     (merge_with_polygon [pLineW] (some [fRecW]))[0]? = some mergedW ∧
     (mergedW.fiscal_date = pLineW.fiscal_date ∧
      mergedW.period = pLineW.period ∧
      mergedW.reported_eps = pLineW.reported_eps ∧
      mergedW.revenue = pLineW.revenue ∧
      mergedW.free_cash_flow = pLineW.free_cash_flow ∧
      mergedW.peRat = pLineW.peRat ∧
      mergedW.price = pLineW.price)) :=
  ⟨(merge_preserves_frame [pLineW] (some [fRecW])).1,
   rfl, rfl,
   (merge_preserves_frame [pLineW] (some [fRecW])).2 0 pLineW mergedW rfl rfl⟩

end StockResearch
